import Mathlib

/-!
Verification development for the keras-pipeline RetinaNet detection pipeline.

The source files under study are
`keras_pipeline/models/retinanet.py`, `keras_pipeline/backend/_tensorflow_backend.py`
and `keras_pipeline/preprocessing/image.py`.  Layers referenced by the model code
(`Anchors`, `RegressBoxes`, `ClipBoxes`, `FilterDetections`) live in a module that is
not part of the provided sources; those are modelled from the specification text and
are marked as such in their doc comments.  Coordinates are modelled as rationals so
that "exact up to floating-point precision" becomes exact rational equality.
-/

namespace KerasPipeline

/-- Axis-aligned box `(x1, y1, x2, y2)` in absolute image pixel coordinates (spec §3). -/
structure Box where
  x1 : ℚ
  y1 : ℚ
  x2 : ℚ
  y2 : ℚ
deriving DecidableEq

/-- Regression 4-vector `(dx1, dy1, dx2, dy2)` (spec §3). -/
structure Delta where
  dx1 : ℚ
  dy1 : ℚ
  dx2 : ℚ
  dy2 : ℚ
deriving DecidableEq

/-- Modelled from the spec: the `BoxCoder` encode direction (spec §4.3 / §3): the
offset needed to transform the anchor into its matched ground-truth box, normalized
by a fixed scale factor `σ`.  The implementing layer module is not among the
provided sources. -/
def encode (σ : ℚ) (a b : Box) : Delta :=
  { dx1 := (b.x1 - a.x1) / σ
    dy1 := (b.y1 - a.y1) / σ
    dx2 := (b.x2 - a.x2) / σ
    dy2 := (b.y2 - a.y2) / σ }

/-- Modelled from the spec: the `BoxCoder` decode direction (spec §4.3): invert the
same transform, using the same fixed normalization constant `σ`, to produce an
absolute box from a raw regression 4-vector. -/
def decode (σ : ℚ) (a : Box) (d : Delta) : Box :=
  { x1 := a.x1 + d.dx1 * σ
    y1 := a.y1 + d.dy1 * σ
    x2 := a.x2 + d.dx2 * σ
    y2 := a.y2 + d.dy2 * σ }

/-- Maximum of two rationals, written with an explicit `if` so that concrete
inputs evaluate by kernel reduction. -/
def qmax (a b : ℚ) : ℚ := if a ≤ b then b else a

/-- Minimum of two rationals, written with an explicit `if` so that concrete
inputs evaluate by kernel reduction. -/
def qmin (a b : ℚ) : ℚ := if a ≤ b then a else b

/-- Area of a box, clamped at zero for degenerate coordinates (spec §7 treats
non-positive-area geometry as zero-area). -/
def boxArea (b : Box) : ℚ :=
  qmax 0 (b.x2 - b.x1) * qmax 0 (b.y2 - b.y1)

/-- Intersection area of two boxes (zero when they are disjoint). -/
def interArea (a b : Box) : ℚ :=
  qmax 0 (qmin a.x2 b.x2 - qmax a.x1 b.x1) * qmax 0 (qmin a.y2 b.y2 - qmax a.y1 b.y1)

/-- Modelled from the spec: IoU, the ratio of overlap area to union area of two
boxes (glossary), with the divide-by-zero case defined to return 0 (spec §7). -/
def iou (a b : Box) : ℚ :=
  if boxArea a + boxArea b - interArea a b = 0 then 0
  else interArea a b / (boxArea a + boxArea b - interArea a b)

/-- A scored NMS candidate: original index, box, confidence score. -/
structure Cand where
  idx   : ℕ
  box   : Box
  score : ℚ
deriving DecidableEq

/-- Stable insertion used by the descending-by-score sort: the candidate walks
past elements of strictly greater score only and is inserted before the first
element of equal or lower score.  In `sortByScore` the inserted candidate comes
from earlier in the original list than everything already sorted, so on equal
scores the earlier index ends up first (spec §4.5 step 2, "stable sort",
"earlier index wins"). -/
def insertDesc (c : Cand) : List Cand → List Cand
  | [] => [c]
  | d :: ds => if d.score > c.score then d :: insertDesc c ds else c :: d :: ds

/-- Stable sort by descending score (spec §4.5 step 2): ties keep the original
order, earlier index first. -/
def sortByScore : List Cand → List Cand
  | [] => []
  | c :: cs => insertDesc c (sortByScore cs)

/-- Modelled from the spec: the greedy suppression loop of §4.5 step 2, applied to
an already score-sorted candidate list — select the head, suppress every remaining
candidate with IoU ≥ `t` against it, repeat.  Returns the kept original indices in
selection order.  The `fuel` argument bounds the iteration count; with
`fuel ≥ length` it never cuts the loop short (each step strictly shrinks the
list).  The implementing layer module is not among the provided sources. -/
def nmsLoopGE (t : ℚ) : ℕ → List Cand → List ℕ
  | 0, _ => []
  | _, [] => []
  | fuel + 1, c :: rest =>
      c.idx :: nmsLoopGE t fuel (rest.filter (fun d => ¬ (iou c.box d.box ≥ t)))

/-- Modelled from the spec: per-class NMS exactly as §4.5 step 2 words it — sort by
descending score (stable, earlier index wins on ties), then greedily suppress at
IoU ≥ `t`. -/
def nmsGE (t : ℚ) (cands : List Cand) : List ℕ :=
  nmsLoopGE t cands.length (sortByScore cands)

/-- The amended greedy suppression loop: suppression happens only for IoU strictly
greater than `t` (the rule the backing `tensorflow.image.non_max_suppression`
implements). -/
def nmsLoopGT (t : ℚ) : ℕ → List Cand → List ℕ
  | 0, _ => []
  | _, [] => []
  | fuel + 1, c :: rest =>
      c.idx :: nmsLoopGT t fuel (rest.filter (fun d => ¬ (iou c.box d.box > t)))

/-- The amended per-class NMS: stable descending sort, then greedy suppression at
IoU strictly greater than `t`. -/
def nmsGT (t : ℚ) (cands : List Cand) : List ℕ :=
  nmsLoopGT t cands.length (sortByScore cands)

/-! Symbolic embedding of the keras graph construction in
`keras_pipeline/models/retinanet.py`.  A `Tensor` is a node of the symbolic
computation graph; each constructor records one keras layer application exactly
as the source applies it, including the layer's configuration and name. -/

/-- A symbolic keras tensor, as built by the model-construction code.
`input` is `model.input`; `layerOutput l` is `model.get_layer(l).output`;
`classificationOut` and `regressionOut` are the two entries of `model.output`
of the training model. -/
inductive Tensor where
  | input : Tensor
  | layerOutput : String → Tensor
  | classificationOut : Tensor
  | regressionOut : Tensor
  | anchorsLayer : ℚ → ℚ → List ℝ → List ℝ → String → Tensor → Tensor
  | concat : String → List Tensor → Tensor
  | regressBoxes : String → Tensor → Tensor → Tensor
  | clipBoxes : String → Tensor → Tensor → Tensor
  | filterDetections : String → Tensor → Tensor → Tensor

/-- Default anchor sizes of `__build_anchors` (`sizes = [32, 64, 128, 256, 512]`). -/
def default_sizes : List ℚ := [32, 64, 128, 256, 512]

/-- Default anchor strides of `__build_anchors` (`strides = [8, 16, 32, 64, 128]`). -/
def default_strides : List ℚ := [8, 16, 32, 64, 128]

/-- Default anchor ratios of `__build_anchors` (`ratios = [0.5, 1., 2.]`). -/
noncomputable def default_ratios : List ℝ := [1/2, 1, 2]

/-- Default anchor scales of `__build_anchors`
(`scales = [2 ** 0, 2 ** (1/3), 2 ** (2/3)]`). -/
noncomputable def default_scales : List ℝ :=
  [(2 : ℝ) ^ (0 : ℝ), (2 : ℝ) ^ ((1 : ℝ) / 3), (2 : ℝ) ^ ((2 : ℝ) / 3)]

/-- Embedding of `__build_anchors` (retinanet.py lines 122-160): assert that the
`sizes` and `strides` lists are as long as the feature list (`assert
len(features) == len(sizes)` / `== len(strides)`, an `AssertionError` modelled as
`Except.error`), then apply one `Anchors` layer per feature level — level `i`
taking `sizes[i]` and `strides[i]`, here expressed by zipping the
equal-length lists — and concatenate the per-level outputs on axis 1. -/
def build_anchors (features : List Tensor) (sizes strides : List ℚ)
    (ratios scales : List ℝ) : Except String Tensor :=
  if features.length ≠ sizes.length then .error "Must have 5 anchor sizes"
  else if features.length ≠ strides.length then .error "Must have 5 anchor strides"
  else .ok (.concat "anchors"
    (((features.zip (sizes.zip strides)).enum).map
      (fun p => .anchorsLayer p.2.2.1 p.2.2.2 ratios scales
        ("anchors_" ++ toString p.1) p.2.1)))

/-- The pyramid levels the inference model reads back from the training model
(retinanet.py line 309: `('P3', 'P4', 'P5', 'P6', 'P7')`). -/
def pyramid_levels : List String := ["P3", "P4", "P5", "P6", "P7"]

/-- Embedding of `RetinaNetFromTrain` (retinanet.py lines 294-335): take the
training model's input, the `P3`..`P7` feature layers and the two training
outputs; build anchors from the features with the configured sizes, strides,
ratios and scales; apply `RegressBoxes` to `[anchors, regression]`, then
`ClipBoxes` to `[input, boxes]`, then `FilterDetections` to
`[boxes, classification]`; the detections are the model output. -/
def RetinaNetFromTrain (sizes strides : List ℚ) (ratios scales : List ℝ) :
    Except String Tensor :=
  let input := Tensor.input
  let features := pyramid_levels.map Tensor.layerOutput
  let classification := Tensor.classificationOut
  let regression := Tensor.regressionOut
  (build_anchors features sizes strides ratios scales).map (fun anchors =>
    let boxes := Tensor.regressBoxes "boxes" anchors regression
    let boxes := Tensor.clipBoxes "clipped_boxes" input boxes
    let detections := Tensor.filterDetections "nms" boxes classification
    detections)

/-- Tags for the custom objects `LoadRetinaNet` registers for deserialization. -/
inductive CustomObject where
  | resizeToLayer
  | regressBoxesLayer
  | filterDetectionsLayer
  | anchorsLayerCls
  | clipBoxesLayer
  | focalLoss
  | smoothL1Loss
  | backboneObject : String → CustomObject
deriving DecidableEq

/-- Embedding of the `custom_objects` dictionary literal of `LoadRetinaNet`
(retinanet.py lines 376-384): the explicit name-to-constructor registry. -/
def retinanet_custom_objects : List (String × CustomObject) :=
  [("ResizeTo", .resizeToLayer),
   ("RegressBoxes", .regressBoxesLayer),
   ("FilterDetections", .filterDetectionsLayer),
   ("Anchors", .anchorsLayerCls),
   ("ClipBoxes", .clipBoxesLayer),
   ("detection_focal_loss", .focalLoss),
   ("detection_smooth_l1_loss", .smoothL1Loss)]

/-- Embedding of `custom_objects.update(load_backbone_custom_objects(...))`
(retinanet.py line 387): the backbone's entries are added to the registry,
overriding the base entry on a key collision (python `dict.update`). -/
def load_retinanet_custom_objects (backboneObjs : List (String × CustomObject)) :
    List (String × CustomObject) :=
  retinanet_custom_objects ++ backboneObjs

/-- Name resolution against the registry `LoadRetinaNet` passes to
`keras.models.load_model`: a plain finite-map lookup (backbone entries override
base entries, per `dict.update`); a name absent from the registry resolves to
nothing. -/
def resolve_custom_object (backboneObjs : List (String × CustomObject))
    (name : String) : Option CustomObject :=
  match List.lookup name backboneObjs with
  | some c => some c
  | none => List.lookup name retinanet_custom_objects

/-! Element-level embedding of the per-level concatenations.  `__apply_model`
and `__build_anchors` both concatenate per-level outputs along axis 1 in the
order of the `features` list; per-level outputs are modelled as lists of
per-anchor entries. -/

/-- Embedding of `__apply_model` (retinanet.py lines 107-119):
`Concatenate(axis=1)([model(f) for f in features])`. -/
def apply_model {F P : Type} (model : F → List P) (features : List F) : List P :=
  (features.map model).flatten

/-- Element-level view of `__build_anchors`' concatenation (lines 147-158): one
`Anchors` layer output per feature level, concatenated in feature order. -/
def build_anchors_concat {F : Type} (anchorsFor : F → List Box) (features : List F) :
    List Box :=
  (features.map anchorsFor).flatten

/-- Which level and within-level offset a flat concatenated index falls into,
given the per-level lengths. -/
def locate : List ℕ → ℕ → Option (ℕ × ℕ)
  | [], _ => none
  | n :: ns, i =>
      if i < n then some (0, i)
      else (locate ns (i - n)).map (fun p => (p.1 + 1, p.2))

/-! Embedding of the prediction heads' output stage.  The four inner conv
layers keep the spatial shape (`padding='same'`, stride 1) and their learned
values are abstracted as the final conv output `convOut y x ch`; the claims
concern the reshape and activation that follow it. -/

/-- The sigmoid activation used by `Activation('sigmoid')`. -/
noncomputable def sigmoid (x : ℝ) : ℝ := 1 / (1 + Real.exp (-x))

/-- Keras `Reshape((-1, cols))` applied to a row-major flat tensor: entry
`(r, j)` of the result is flat entry `r * cols + j`. -/
def reshapeRows (cols : ℕ) (flat : ℕ → ℝ) : ℕ → ℕ → ℝ :=
  fun r j => flat (r * cols + j)

/-- Row-major flattening of an `(H, W, C)` tensor with width `w` and `c`
channels: flat index `i` addresses `(i / (w*c), i % (w*c) / c, i % c)`. -/
def flattenHWC (w c : ℕ) (t : ℕ → ℕ → ℕ → ℝ) : ℕ → ℝ :=
  fun i => t (i / (w * c)) (i % (w * c) / c) (i % c)

/-- Embedding of the output stage of `default_classification_model`
(retinanet.py lines 47-57): the final conv emits `num_classes * num_anchors`
channels per spatial cell, `Reshape((-1, num_classes))` flattens row-major to
one row per anchor, and `Activation('sigmoid')` is applied elementwise. -/
noncomputable def classification_submodel (numClasses numAnchors w : ℕ)
    (convOut : ℕ → ℕ → ℕ → ℝ) : ℕ → ℕ → ℝ :=
  fun r j =>
    sigmoid (reshapeRows numClasses
      (flattenHWC w (numClasses * numAnchors) convOut) r j)

/-- Embedding of the output stage of `default_regression_model`
(retinanet.py lines 101-102): the final conv emits `num_anchors * 4` channels
per spatial cell and `Reshape((-1, 4))` flattens row-major to one row per
anchor, with no activation. -/
def regression_submodel (numAnchors w : ℕ) (convOut : ℕ → ℕ → ℕ → ℝ) :
    ℕ → ℕ → ℝ :=
  reshapeRows 4 (flattenHWC w (numAnchors * 4) convOut)

/-! Embedding of `keras_pipeline/preprocessing/image.py`.  Image files are
byte lists; conversion results are `Except` values, with python exceptions
(`UnknownImageFormat`, uncaught `AssertionError`/`struct.error`/`TypeError`)
modelled as `Except.error` carrying the exception text. -/

/-- A pixel of a PIL image in one of the source color modes. -/
inductive Pixel where
  | gray : ℕ → Pixel
  | pal : ℕ → Pixel
  | rgb : ℕ → ℕ → ℕ → Pixel
  | rgba : ℕ → ℕ → ℕ → ℕ → Pixel

/-- An opened PIL image: dimensions, a palette (used by palette-mode pixels)
and a pixel grid. -/
structure PILImage where
  height : ℕ
  width : ℕ
  palette : ℕ → ℕ × ℕ × ℕ
  px : ℕ → ℕ → Pixel

/-- Modelled from the PIL interface `read_image` relies on:
`Image.convert('RGB')` maps every pixel to an RGB triple — grayscale values are
replicated across the three channels, palette indices are resolved through the
palette, existing RGB is kept, and RGBA drops the alpha channel. -/
def convertRGB (img : PILImage) (y x : ℕ) : ℕ × ℕ × ℕ :=
  match img.px y x with
  | .gray v => (v, v, v)
  | .pal i => img.palette i
  | .rgb r g b => (r, g, b)
  | .rgba r g b _ => (r, g, b)

/-- Channel `c` of an RGB triple, in RGB order (channels beyond 2 unused). -/
def channelOf (c : ℕ) (p : ℕ × ℕ × ℕ) : ℕ :=
  match c with
  | 0 => p.1
  | 1 => p.2.1
  | 2 => p.2.2
  | _ + 3 => 0

/-- Embedding of `read_image` (image.py lines 10-11):
`np.asarray(Image.open(path).convert('RGB'))` — the array shape paired with the
entry-level accessor of the resulting height × width × 3 RGB array. -/
def read_image (img : PILImage) : (ℕ × ℕ × ℕ) × (ℕ → ℕ → ℕ → ℕ) :=
  ((img.height, img.width, 3), fun y x c => channelOf c (convertRGB img y x))

/-- The slice `data[pos : pos + len]` of a byte list (also the result of
`seek(pos)` followed by `read(len)`, which silently returns fewer bytes near
the end of the file). -/
def bytesAt (data : List ℕ) (pos len : ℕ) : List ℕ := (data.drop pos).take len

/-- `read` of an exact byte count as `struct.unpack` needs it: fewer available
bytes make the unpack raise `struct.error`. -/
def readExact (data : List ℕ) (pos len : ℕ) : Except String (List ℕ) :=
  if (bytesAt data pos len).length < len then
    .error ("unpack requires a buffer of " ++ toString len ++ " bytes")
  else .ok (bytesAt data pos len)

/-- `struct.unpack("<H")`: little-endian unsigned 16-bit. -/
def u16le (b : List ℕ) : ℕ := b.getD 0 0 + 256 * b.getD 1 0

/-- `struct.unpack(">H")`: big-endian unsigned 16-bit. -/
def u16be (b : List ℕ) : ℕ := 256 * b.getD 0 0 + b.getD 1 0

/-- `struct.unpack("<I")` / `"<L"`: little-endian unsigned 32-bit. -/
def u32le (b : List ℕ) : ℕ :=
  b.getD 0 0 + 256 * b.getD 1 0 + 65536 * b.getD 2 0 + 16777216 * b.getD 3 0

/-- `struct.unpack(">L")`: big-endian unsigned 32-bit. -/
def u32be (b : List ℕ) : ℕ :=
  16777216 * b.getD 0 0 + 65536 * b.getD 1 0 + 256 * b.getD 2 0 + b.getD 3 0

/-- Little-endian unsigned 64-bit (used for 8-byte TIFF values). -/
def u64le (b : List ℕ) : ℕ := u32le (b.take 4) + 4294967296 * u32le (b.drop 4)

/-- `struct.unpack("<i")`: little-endian signed 32-bit. -/
def i32le (b : List ℕ) : ℤ :=
  if u32le b < 2147483648 then (u32le b : ℤ) else (u32le b : ℤ) - 4294967296

/-- Signed 8-bit (`struct` format `b`). -/
def s8 (b : ℕ) : ℤ := if b < 128 then (b : ℤ) else (b : ℤ) - 256

/-- Little-endian signed 16-bit (`struct` format `<h`). -/
def s16le (b : List ℕ) : ℤ :=
  if u16le b < 32768 then (u16le b : ℤ) else (u16le b : ℤ) - 65536

/-- Python `int()` truncation of an IEEE-754 single-precision value given by
its bit pattern: exact integer arithmetic on sign, exponent and mantissa;
infinities and NaN raise. -/
def f32toInt (u : ℕ) : Except String ℤ :=
  let sign := u / 2 ^ 31
  let e := (u / 2 ^ 23) % 2 ^ 8
  let m := u % 2 ^ 23
  if e = 255 then .error "cannot convert float NaN or infinity to integer"
  else
    let mag : ℕ :=
      if e = 0 then 0
      else if e ≤ 150 then (2 ^ 23 + m) / 2 ^ (150 - e)
      else (2 ^ 23 + m) * 2 ^ (e - 150)
    .ok (if sign = 1 then -(mag : ℤ) else (mag : ℤ))

/-- Python `int()` truncation of an IEEE-754 double-precision value given by
its bit pattern. -/
def f64toInt (u : ℕ) : Except String ℤ :=
  let sign := u / 2 ^ 63
  let e := (u / 2 ^ 52) % 2 ^ 11
  let m := u % 2 ^ 52
  if e = 2047 then .error "cannot convert float NaN or infinity to integer"
  else
    let mag : ℕ :=
      if e = 0 then 0
      else if e ≤ 1075 then (2 ^ 52 + m) / 2 ^ (1075 - e)
      else (2 ^ 52 + m) * 2 ^ (e - 1075)
    .ok (if sign = 1 then -(mag : ℤ) else (mag : ℤ))

/-- The JPEG error-message suffix of `get_image_size`
(`msg = " raised while trying to decode as JPEG."`). -/
def jpegMsg : String := " raised while trying to decode as JPEG."

/-- The inner `while (ord(b) != 0xFF)` scan of the JPEG branch: keep reading
until the current byte is `0xFF`; reading past end of file feeds `b''` to
`ord`, raising `TypeError`.  `fuel` exceeds the file length, so it never cuts
the scan short. -/
def jpegFindFF (data : List ℕ) : ℕ → ℕ → ℕ → Except String (ℕ × ℕ)
  | 0, _, _ => .error ("TypeError" ++ jpegMsg)
  | fuel + 1, b, pos =>
      if b ≠ 255 then
        match data[pos]? with
        | none => .error ("TypeError" ++ jpegMsg)
        | some b2 => jpegFindFF data fuel b2 (pos + 1)
      else .ok (b, pos)

/-- The inner `while (ord(b) == 0xFF)` scan of the JPEG branch: skip the run of
`0xFF` bytes; reading past end of file raises `TypeError`. -/
def jpegSkipFF (data : List ℕ) : ℕ → ℕ → ℕ → Except String (ℕ × ℕ)
  | 0, _, _ => .error ("TypeError" ++ jpegMsg)
  | fuel + 1, b, pos =>
      if b = 255 then
        match data[pos]? with
        | none => .error ("TypeError" ++ jpegMsg)
        | some b2 => jpegSkipFF data fuel b2 (pos + 1)
      else .ok (b, pos)

/-- The marker-scanning loop of the JPEG branch of `get_image_size` (image.py
lines 57-83).  A start-of-frame marker (`0xC0`..`0xC3`) yields the stored
`(height, width)` pair (returned `(width, height)`); exiting the loop on end of
file or on the `0xDA` start-of-scan marker leaves `w`, `h` unbound, so `int(w)`
raises `NameError`; short reads for `struct.unpack` raise `struct.error`; a
segment length of 0 makes `read(-2)` raise `ValueError`, while a segment length
of 1 makes `read(-1)` consume the rest of the file.  All exceptions are caught
and re-raised as `UnknownImageFormat` with the exception class name. -/
def jpegScan (data : List ℕ) : ℕ → Option ℕ → ℕ → Except String (ℤ × ℤ)
  | 0, _, _ => .error ("TypeError" ++ jpegMsg)
  | fuel + 1, b, pos =>
      match b with
      | none => .error ("NameError" ++ jpegMsg)
      | some bv =>
          if bv = 218 then .error ("NameError" ++ jpegMsg)
          else
            match jpegFindFF data (data.length + 1) bv pos with
            | .error e => .error e
            | .ok (b1, pos1) =>
                match jpegSkipFF data (data.length + 1) b1 pos1 with
                | .error e => .error e
                | .ok (b2, pos2) =>
                    if 192 ≤ b2 ∧ b2 ≤ 195 then
                      if (bytesAt data (pos2 + 3) 4).length < 4 then
                        .error ("StructError" ++ jpegMsg)
                      else
                        .ok ((u16be (bytesAt data (pos2 + 5) 2) : ℤ),
                             (u16be (bytesAt data (pos2 + 3) 2) : ℤ))
                    else
                      if (bytesAt data pos2 2).length < 2 then
                        .error ("StructError" ++ jpegMsg)
                      else
                        if u16be (bytesAt data pos2 2) = 0 then
                          .error ("ValueError" ++ jpegMsg)
                        else if u16be (bytesAt data pos2 2) = 1 then
                          jpegScan data fuel data[data.length]? (data.length + 1)
                        else
                          jpegScan data fuel data[pos2 + u16be (bytesAt data pos2 2)]?
                            (pos2 + u16be (bytesAt data pos2 2) + 1)

/-- The JPEG branch of `get_image_size`: skip the 2-byte SOI marker, read the
first scan byte and run the marker loop. -/
def jpeg_size (data : List ℕ) : Except String (ℤ × ℤ) :=
  jpegScan data (data.length + 2) data[2]? 3

/-- Byte size of each TIFF field type (`tiffTypes` in the source); `none` for
an unknown type id. -/
def tiffTypeSize (ty : ℕ) : Option ℕ :=
  match ty with
  | 1 => some 1 | 2 => some 1 | 3 => some 2 | 4 => some 4 | 5 => some 8
  | 6 => some 1 | 7 => some 1 | 8 => some 2 | 9 => some 4 | 10 => some 8
  | 11 => some 4 | 12 => some 8
  | _ => none

/-- `int(struct.unpack(typeChar, value)[0])` for a TIFF field value.  The
source always unpacks little-endian in Python 3: its byte-order check compares
the `bytes` header against the `str` `"MM"`, which is never equal, so `boChar`
is always `"<"`.  Char-typed fields (ASCII/UNDEFINED) feed `bytes` to `int`,
raising `TypeError`; float fields truncate. -/
def tiffDecodeValue (ty : ℕ) (bs : List ℕ) : Except String ℤ :=
  match ty with
  | 1 => .ok (bs.getD 0 0 : ℤ)
  | 2 => .error "int() argument must not be bytes"
  | 3 => .ok (u16le bs : ℤ)
  | 4 => .ok (u32le bs : ℤ)
  | 5 => .ok (u32le (bs.take 4) : ℤ)
  | 6 => .ok (s8 (bs.getD 0 0))
  | 7 => .error "int() argument must not be bytes"
  | 8 => .ok (s16le bs)
  | 9 => .ok (i32le bs)
  | 10 => .ok (i32le (bs.take 4))
  | 11 => f32toInt (u32le bs)
  | 12 => f64toInt (u64le bs)
  | _ => .error ("Unkown TIFF field type:" ++ toString ty)

/-- The IFD entry loop of the TIFF branch (image.py lines 123-155): walk up to
`count` 12-byte entries, record tag 256 as width and tag 257 as height, and
stop as soon as both are known.  Entries never written leave the initial `-1`
values in place.  Exceptions inside the loop surface as `UnknownImageFormat`. -/
def tiffLoop (data : List ℕ) (ifdOffset : ℕ) :
    ℕ → ℕ → ℤ → ℤ → Except String (ℤ × ℤ)
  | 0, _, width, height => .ok (width, height)
  | count + 1, i, width, height =>
      match readExact data (ifdOffset + 2 + i * 12) 2 with
      | .error e => .error e
      | .ok tagB =>
          if u16le tagB = 256 ∨ u16le tagB = 257 then
            match readExact data (ifdOffset + 2 + i * 12 + 2) 2 with
            | .error e => .error e
            | .ok tyB =>
                match tiffTypeSize (u16le tyB) with
                | none => .error ("Unkown TIFF field type:" ++ toString (u16le tyB))
                | some sz =>
                    match readExact data (ifdOffset + 2 + i * 12 + 8) sz with
                    | .error e => .error e
                    | .ok valB =>
                        match tiffDecodeValue (u16le tyB) valB with
                        | .error e => .error e
                        | .ok v =>
                            let width2 := if u16le tagB = 256 then v else width
                            let height2 := if u16le tagB = 256 then height else v
                            if width2 > -1 ∧ height2 > -1 then .ok (width2, height2)
                            else tiffLoop data ifdOffset count (i + 1) width2 height2
          else
            if width > -1 ∧ height > -1 then .ok (width, height)
            else tiffLoop data ifdOffset count (i + 1) width height

/-- The TIFF branch of `get_image_size`: read the IFD offset at byte 4, the
entry count at the IFD, then walk the entries. -/
def tiff_size (data : List ℕ) : Except String (ℤ × ℤ) :=
  match readExact data (u32le (bytesAt data 4 4)) 2 with
  | .error e => .error e
  | .ok ec => tiffLoop data (u32le (bytesAt data 4 4)) (u16le ec) 0 (-1) (-1)

/-- The ICO fallback branch of `get_image_size` (image.py lines 158-175): a
nonzero reserved word is `UnknownImageFormat`; a resource type other than 1
fails the (uncaught) `assert`; the first directory entry's width and height
bytes are the result (a multi-image file only warns). -/
def ico_size (data : List ℕ) : Except String (ℤ × ℤ) :=
  if u16le (bytesAt data 0 2) ≠ 0 then
    .error "Sorry, don't know how to get size for this file."
  else
    match readExact data 2 2 with
    | .error e => .error e
    | .ok fmtB =>
        if u16le fmtB ≠ 1 then .error "AssertionError"
        else
          match readExact data 4 2 with
          | .error e => .error e
          | .ok _ =>
              match (data[6]? : Option ℕ) with
              | none => .error "ord() expected a character"
              | some w =>
                  match (data[7]? : Option ℕ) with
                  | none => .error "ord() expected a character"
                  | some h => .ok ((w : ℤ), (h : ℤ))

/-- Embedding of `get_image_size` (image.py lines 23-179).  `data.length` is
`os.path.getsize`; the 26-byte header read `data = input.read(26)` is inlined
as `data.take 26`.  The format guards and field extractions follow the source
branch for branch; `UnknownImageFormat` and uncaught exceptions are
`Except.error`. -/
def get_image_size (data : List ℕ) : Except String (ℤ × ℤ) :=
  if 10 ≤ data.length ∧ ((data.take 26).take 6 = [71, 73, 70, 56, 55, 97] ∨
      (data.take 26).take 6 = [71, 73, 70, 56, 57, 97]) then
    .ok ((u16le (bytesAt (data.take 26) 6 2) : ℤ),
         (u16le (bytesAt (data.take 26) 8 2) : ℤ))
  else if 24 ≤ data.length ∧
      (data.take 26).take 8 = [137, 80, 78, 71, 13, 10, 26, 10] ∧
      bytesAt (data.take 26) 12 4 = [73, 72, 68, 82] then
    .ok ((u32be (bytesAt (data.take 26) 16 4) : ℤ),
         (u32be (bytesAt (data.take 26) 20 4) : ℤ))
  else if 16 ≤ data.length ∧
      (data.take 26).take 8 = [137, 80, 78, 71, 13, 10, 26, 10] then
    .ok ((u32be (bytesAt (data.take 26) 8 4) : ℤ),
         (u32be (bytesAt (data.take 26) 12 4) : ℤ))
  else if 2 ≤ data.length ∧ (data.take 26).take 2 = [255, 216] then
    jpeg_size data
  else if 26 ≤ data.length ∧ (data.take 26).take 2 = [66, 77] then
    if u32le (bytesAt (data.take 26) 14 4) = 12 then
      .ok ((u16le (bytesAt (data.take 26) 18 2) : ℤ),
           (u16le (bytesAt (data.take 26) 20 2) : ℤ))
    else if 40 ≤ u32le (bytesAt (data.take 26) 14 4) then
      .ok (i32le (bytesAt (data.take 26) 18 4),
           ((i32le (bytesAt (data.take 26) 22 4)).natAbs : ℤ))
    else
      .error ("Unkown DIB header size:" ++
        toString (u32le (bytesAt (data.take 26) 14 4)))
  else if 8 ≤ data.length ∧ ((data.take 26).take 4 = [73, 73, 42, 0] ∨
      (data.take 26).take 4 = [77, 77, 0, 42]) then
    tiff_size data
  else if 2 ≤ data.length then
    ico_size data
  else
    .error "Sorry, don't know how to get size for this file."

/-! Helper lemmas shared across the development. -/

/-- Indexing a concatenation of lists: if `locate` resolves flat index `i` to
level `lvl` at offset `off` (using the per-level lengths), then entry `i` of the
join is entry `off` of list `lvl`. -/
theorem join_getElem {α : Type} (xss : List (List α)) (i lvl off : ℕ)
    (h : locate (xss.map List.length) i = some (lvl, off)) :
    xss.flatten[i]? = xss[lvl]?.bind (fun xs => xs[off]?) := by
  induction xss generalizing i lvl off with
  | nil => cases h
  | cons xs xss ih =>
      simp only [List.map_cons, locate] at h
      by_cases hi : i < xs.length
      · rw [if_pos hi] at h
        obtain ⟨rfl, rfl⟩ : 0 = lvl ∧ i = off := by
          have := Option.some.inj h
          exact ⟨congrArg Prod.fst this, congrArg Prod.snd this⟩
        rw [List.flatten_cons, List.getElem?_append_left hi]
        simp
      · rw [if_neg hi] at h
        cases hloc : locate (xss.map List.length) (i - xs.length) with
        | none => rw [hloc] at h; cases h
        | some p =>
            rw [hloc] at h
            obtain ⟨rfl, rfl⟩ : p.1 + 1 = lvl ∧ p.2 = off := by
              have := Option.some.inj h
              exact ⟨congrArg Prod.fst this, congrArg Prod.snd this⟩
            rw [List.flatten_cons, List.getElem?_append_right (Nat.le_of_not_lt hi),
              ih (i - xs.length) p.1 p.2 hloc]
            simp

/-- Row-major index arithmetic: the flat index of spatial cell `(y, x)` and
channel `ch` decodes back to `(y, x, ch)`. -/
theorem flat_index_eval (y x ch w c : ℕ) (hx : x < w) (hch : ch < c) :
    ((y * w + x) * c + ch) / (w * c) = y ∧
    ((y * w + x) * c + ch) % (w * c) / c = x ∧
    ((y * w + x) * c + ch) % c = ch := by
  have hc : 0 < c := lt_of_le_of_lt (Nat.zero_le ch) hch
  have hwc : 0 < w * c := Nat.mul_pos (lt_of_le_of_lt (Nat.zero_le x) hx) hc
  have hlt : x * c + ch < w * c := by
    calc x * c + ch < x * c + c := Nat.add_lt_add_left hch _
    _ = (x + 1) * c := by ring
    _ ≤ w * c := Nat.mul_le_mul_right c (Nat.succ_le_of_lt hx)
  have key : (y * w + x) * c + ch = w * c * y + (x * c + ch) := by ring
  refine ⟨?_, ?_, ?_⟩
  · rw [key, Nat.mul_add_div hwc, Nat.div_eq_of_lt hlt, Nat.add_zero]
  · rw [key, Nat.mul_add_mod, Nat.mod_eq_of_lt hlt]
    have key2 : x * c + ch = c * x + ch := by ring
    rw [key2, Nat.mul_add_div hc, Nat.div_eq_of_lt hch, Nat.add_zero]
  · have key3 : (y * w + x) * c + ch = c * (y * w + x) + ch := by ring
    rw [key3, Nat.mul_add_mod, Nat.mod_eq_of_lt hch]

/-- A slice fully inside the first `m` bytes is unaffected by truncating the
file to `m` bytes. -/
theorem bytesAt_take (data : List ℕ) (p l m : ℕ) (h : p + l ≤ m) :
    bytesAt (data.take m) p l = bytesAt data p l := by
  unfold bytesAt
  rw [List.drop_take, List.take_take]
  congr 1
  omega

/-- Any header slice of at least two bytes taken from a file that starts with
`BM` still starts with `BM`. -/
theorem take_take_bm (data : List ℕ) (hBM : data.take 2 = [66, 77]) (k : ℕ)
    (hk : 2 ≤ k) : ((data.take 26).take k).take 2 = [66, 77] := by
  rw [List.take_take, List.take_take]
  have hmin : min (min 2 k) 26 = 2 := by omega
  rw [hmin, hBM]

/-- On a file of at least 26 bytes starting with `BM`, `get_image_size` reaches
the BMP branch: the result is decided by the DIB header size at byte 14 — the
legacy 12-byte header reads unsigned 16-bit dimensions, a header of size ≥ 40
reads signed 32-bit dimensions taking the height's absolute value, and any
other header size is `UnknownImageFormat`. -/
theorem get_image_size_bmp (data : List ℕ) (h26 : 26 ≤ data.length)
    (hBM : data.take 2 = [66, 77]) :
    get_image_size data =
      (if u32le (bytesAt data 14 4) = 12 then
        .ok ((u16le (bytesAt data 18 2) : ℤ), (u16le (bytesAt data 20 2) : ℤ))
      else if 40 ≤ u32le (bytesAt data 14 4) then
        .ok (i32le (bytesAt data 18 4), ((i32le (bytesAt data 22 4)).natAbs : ℤ))
      else
        .error ("Unkown DIB header size:" ++
          toString (u32le (bytesAt data 14 4)))) := by
  have htake2 : (data.take 26).take 2 = [66, 77] := by
    rw [List.take_take]
    exact hBM
  have hg1 : ¬(10 ≤ data.length ∧
      ((data.take 26).take 6 = [71, 73, 70, 56, 55, 97] ∨
       (data.take 26).take 6 = [71, 73, 70, 56, 57, 97])) := by
    rintro ⟨-, h | h⟩ <;>
    · have h2 := congrArg (List.take 2) h
      rw [take_take_bm data hBM 6 (by omega)] at h2
      exact absurd h2 (by decide)
  have hg2 : ¬(24 ≤ data.length ∧
      (data.take 26).take 8 = [137, 80, 78, 71, 13, 10, 26, 10] ∧
      bytesAt (data.take 26) 12 4 = [73, 72, 68, 82]) := by
    rintro ⟨-, h, -⟩
    have h2 := congrArg (List.take 2) h
    rw [take_take_bm data hBM 8 (by omega)] at h2
    exact absurd h2 (by decide)
  have hg3 : ¬(16 ≤ data.length ∧
      (data.take 26).take 8 = [137, 80, 78, 71, 13, 10, 26, 10]) := by
    rintro ⟨-, h⟩
    have h2 := congrArg (List.take 2) h
    rw [take_take_bm data hBM 8 (by omega)] at h2
    exact absurd h2 (by decide)
  have hg4 : ¬(2 ≤ data.length ∧ (data.take 26).take 2 = [255, 216]) := by
    rintro ⟨-, h⟩
    rw [htake2] at h
    exact absurd h (by decide)
  unfold get_image_size
  rw [if_neg hg1, if_neg hg2, if_neg hg3, if_neg hg4, if_pos ⟨h26, htake2⟩,
    bytesAt_take data 14 4 26 (by omega), bytesAt_take data 18 2 26 (by omega),
    bytesAt_take data 20 2 26 (by omega), bytesAt_take data 18 4 26 (by omega),
    bytesAt_take data 22 4 26 (by omega)]

/-- The sigmoid takes values in `[0, 1]`. -/
theorem sigmoid_mem_unit (x : ℝ) : 0 ≤ sigmoid x ∧ sigmoid x ≤ 1 := by
  have hexp : 0 < Real.exp (-x) := Real.exp_pos _
  have hden : 0 < 1 + Real.exp (-x) := by linarith
  constructor
  · exact div_nonneg zero_le_one (le_of_lt hden)
  · rw [sigmoid, div_le_one hden]
    linarith

/-- The explicit `qmax` agrees with Mathlib's `max`. -/
theorem qmax_eq_max (a b : ℚ) : qmax a b = max a b := (max_def a b).symm

/-- The explicit `qmin` agrees with Mathlib's `min`. -/
theorem qmin_eq_min (a b : ℚ) : qmin a b = min a b := (min_def a b).symm

/-- Intersection area is nonnegative. -/
theorem interArea_nonneg (a b : Box) : 0 ≤ interArea a b := by
  unfold interArea
  simp only [qmax_eq_max, qmin_eq_min]
  exact mul_nonneg (le_max_left _ _) (le_max_left _ _)

/-- Intersection area never exceeds the first box's area. -/
theorem interArea_le_left (a b : Box) : interArea a b ≤ boxArea a := by
  unfold interArea boxArea
  simp only [qmax_eq_max, qmin_eq_min]
  exact mul_le_mul
    (max_le_max le_rfl (sub_le_sub (min_le_left _ _) (le_max_left _ _)))
    (max_le_max le_rfl (sub_le_sub (min_le_left _ _) (le_max_left _ _)))
    (le_max_left _ _) (le_max_left _ _)

/-- Intersection area never exceeds the second box's area. -/
theorem interArea_le_right (a b : Box) : interArea a b ≤ boxArea b := by
  unfold interArea boxArea
  simp only [qmax_eq_max, qmin_eq_min]
  exact mul_le_mul
    (max_le_max le_rfl (sub_le_sub (min_le_right _ _) (le_max_right _ _)))
    (max_le_max le_rfl (sub_le_sub (min_le_right _ _) (le_max_right _ _)))
    (le_max_left _ _) (le_max_left _ _)

/-- IoU is bounded above by 1. -/
theorem iou_le_one (a b : Box) : iou a b ≤ 1 := by
  unfold iou
  by_cases h : boxArea a + boxArea b - interArea a b = 0
  · simp [h]
  · simp only [h, if_false]
    have h1 : interArea a b ≤ boxArea a := interArea_le_left a b
    have h2 : interArea a b ≤ boxArea b := interArea_le_right a b
    have h0 : 0 ≤ interArea a b := interArea_nonneg a b
    have hle : interArea a b ≤ boxArea a + boxArea b - interArea a b := by linarith
    have hpos : 0 < boxArea a + boxArea b - interArea a b :=
      lt_of_le_of_ne (by linarith) (Ne.symm h)
    exact (div_le_one hpos).mpr hle

/-- Inserting preserves the multiset of candidates. -/
theorem insertDesc_perm (c : Cand) (l : List Cand) :
    (insertDesc c l).Perm (c :: l) := by
  induction l with
  | nil => exact List.Perm.refl _
  | cons d ds ih =>
      unfold insertDesc
      by_cases h : d.score > c.score
      · simp only [h, if_true]
        exact (ih.cons d).trans (List.Perm.swap c d ds)
      · simp only [h, if_false]
        exact List.Perm.refl _

/-- The stable sort is a permutation of its input. -/
theorem sortByScore_perm (l : List Cand) : (sortByScore l).Perm l := by
  induction l with
  | nil => exact List.Perm.refl _
  | cons c cs ih => exact (insertDesc_perm c (sortByScore cs)).trans (ih.cons c)

/-- Inserting into a descending-sorted list keeps it descending-sorted. -/
theorem insertDesc_sorted (c : Cand) (l : List Cand)
    (h : l.Sorted (fun a b => b.score ≤ a.score)) :
    (insertDesc c l).Sorted (fun a b => b.score ≤ a.score) := by
  induction l with
  | nil => simp [insertDesc]
  | cons d ds ih =>
      rw [List.sorted_cons] at h
      unfold insertDesc
      by_cases hd : d.score > c.score
      · simp only [hd, if_true, List.sorted_cons]
        refine ⟨?_, ih h.2⟩
        intro b hb
        rcases List.mem_cons.mp ((insertDesc_perm c ds).mem_iff.mp hb) with hb | hb
        · rw [hb]; exact le_of_lt hd
        · exact h.1 b hb
      · simp only [hd, if_false, List.sorted_cons]
        push_neg at hd
        refine ⟨?_, h⟩
        intro b hb
        rcases List.mem_cons.mp hb with hb | hb
        · rw [hb]; exact hd
        · exact le_trans (h.1 b hb) hd

/-- The stable sort indeed sorts by descending score. -/
theorem sortByScore_sorted (l : List Cand) :
    (sortByScore l).Sorted (fun a b => b.score ≤ a.score) := by
  induction l with
  | nil => simp [sortByScore]
  | cons c cs ih => exact insertDesc_sorted c (sortByScore cs) ih

/-- Inserting a candidate never disturbs an equal-score sublist: the insertion
walks past strictly greater scores only, so for any score value `s` the
inserted candidate lands exactly in front of the equal-score elements. -/
theorem filter_insertDesc (c : Cand) (l : List Cand) (s : ℚ) :
    (insertDesc c l).filter (fun d => d.score = s) =
      if c.score = s then c :: l.filter (fun d => d.score = s)
      else l.filter (fun d => d.score = s) := by
  induction l with
  | nil => by_cases hc : c.score = s <;> simp [insertDesc, hc]
  | cons d ds ih =>
      unfold insertDesc
      by_cases hd : d.score > c.score
      · rw [if_pos hd]
        by_cases hc : c.score = s
        · have hds : ¬ d.score = s := by rw [← hc]; exact ne_of_gt hd
          simp [List.filter_cons, hds, hc, ih]
        · simp [List.filter_cons, hc, ih]
      · rw [if_neg hd]
        by_cases hc : c.score = s <;> simp [List.filter_cons, hc]

/-- Stability of the descending sort: for every score value the equal-score
candidates appear in the output in their original order, so ties are broken in
favour of the earlier index. -/
theorem sortByScore_filter_eq (l : List Cand) (s : ℚ) :
    (sortByScore l).filter (fun d => d.score = s) =
      l.filter (fun d => d.score = s) := by
  induction l with
  | nil => rfl
  | cons c cs ih =>
      show (insertDesc c (sortByScore cs)).filter _ = _
      rw [filter_insertDesc]
      by_cases hc : c.score = s
      · rw [if_pos hc, ih]
        simp [List.filter_cons, hc]
      · rw [if_neg hc, ih]
        simp [List.filter_cons, hc]

/-- With strict-inequality suppression and threshold 1, the greedy loop keeps
every candidate, because IoU never exceeds 1. -/
theorem nmsLoopGT_one (fuel : ℕ) :
    ∀ l : List Cand, l.length ≤ fuel → nmsLoopGT 1 fuel l = l.map Cand.idx := by
  induction fuel with
  | zero =>
      intro l hl
      rw [List.length_eq_zero.mp (Nat.le_zero.mp hl)]
      rfl
  | succ fuel ih =>
      intro l hl
      cases l with
      | nil => rfl
      | cons c rest =>
          have hfilter : rest.filter (fun d => ¬ (iou c.box d.box > 1)) = rest := by
            apply List.filter_eq_self.mpr
            intro d _
            simp only [decide_eq_true_eq, not_lt]
            exact iou_le_one c.box d.box
          unfold nmsLoopGT
          rw [hfilter, List.map_cons]
          exact congrArg (c.idx :: ·)
            (ih rest (Nat.le_of_succ_le_succ (by simpa using hl)))

/-! Claim theorems. -/

/-- C1: for every anchor `a`, box `b` and nonzero normalization constant `σ`,
decoding the encoded regression target against the same anchor reconstructs the
box exactly: `decode σ a (encode σ a b) = b`. -/
theorem C1_decode_encode_roundtrip (σ : ℚ) (a b : Box) (h : σ ≠ 0) :
    decode σ a (encode σ a b) = b := by
  cases a
  cases b
  simp only [decode, encode, div_mul_cancel₀ _ h]
  congr 1 <;> ring

/-- Witness for C1 at a concrete anchor, box and normalization constant. -/
theorem C1_witness :
    decode (1/5) ⟨0, 0, 10, 10⟩ (encode (1/5) ⟨0, 0, 10, 10⟩ ⟨1, 1, 9, 9⟩)
      = ⟨1, 1, 9, 9⟩ :=
  C1_decode_encode_roundtrip (1/5) ⟨0, 0, 10, 10⟩ ⟨1, 1, 9, 9⟩ (by norm_num)

/-- C5 counterexample: under the claim's own suppression rule (suppress at
IoU ≥ threshold), threshold 1.0 does NOT keep every box — a duplicate of the
selected box has IoU exactly 1 and is suppressed, so index 1 disappears from the
output even though its score is above any threshold. -/
theorem C5_counterexample :
    nmsGE 1 [⟨0, ⟨0, 0, 2, 2⟩, 9/10⟩, ⟨1, ⟨0, 0, 2, 2⟩, 4/5⟩] = [0] ∧
    1 ∉ nmsGE 1 [⟨0, ⟨0, 0, 2, 2⟩, 9/10⟩, ⟨1, ⟨0, 0, 2, 2⟩, 4/5⟩] := by
  have h : nmsGE 1 [⟨0, ⟨0, 0, 2, 2⟩, 9/10⟩, ⟨1, ⟨0, 0, 2, 2⟩, 4/5⟩] = [0] := by
    norm_num [nmsGE, sortByScore, insertDesc, nmsLoopGE, iou, interArea, boxArea,
      qmax, qmin, List.filter]
  refine ⟨h, ?_⟩
  rw [h]
  simp

/-- C5 (amended): per-class NMS sorts candidates by descending score — a stable
sort: for every score value the equal-score candidates keep their original
order, so ties are broken in favour of the earlier index — and greedily
suppresses boxes whose IoU against the selected box is strictly greater than
the threshold; consequently with threshold 1.0 nothing is ever suppressed — the
output lists every candidate's index. -/
theorem C5_nms_amended (cands : List Cand) :
    nmsGT 1 cands = (sortByScore cands).map Cand.idx ∧
    (sortByScore cands).Perm cands ∧
    (sortByScore cands).Sorted (fun a b => b.score ≤ a.score) ∧
    (∀ s : ℚ, (sortByScore cands).filter (fun d => d.score = s) =
      cands.filter (fun d => d.score = s)) := by
  refine ⟨?_, sortByScore_perm cands, sortByScore_sorted cands,
    fun s => sortByScore_filter_eq cands s⟩
  unfold nmsGT
  exact nmsLoopGT_one cands.length (sortByScore cands)
    (le_of_eq (sortByScore_perm cands).length_eq)

/-- C2: whenever anchor construction succeeds, the inference model built by
`RetinaNetFromTrain` outputs exactly `FilterDetections` applied to
(`ClipBoxes` applied to (`RegressBoxes` of anchors and the regression output))
and the classification output — decoding, then clipping, then filtering, with no
other transformation interposed. -/
theorem C2_inference_pipeline_order (sizes strides : List ℚ) (ratios scales : List ℝ)
    (anchors : Tensor)
    (h : build_anchors (pyramid_levels.map Tensor.layerOutput) sizes strides
          ratios scales = .ok anchors) :
    RetinaNetFromTrain sizes strides ratios scales =
      .ok (.filterDetections "nms"
        (.clipBoxes "clipped_boxes" .input
          (.regressBoxes "boxes" anchors .regressionOut))
        .classificationOut) := by
  dsimp only [RetinaNetFromTrain]
  rw [h]
  rfl

/-- Witness for C2 at the default anchor configuration. -/
theorem C2_witness :
    RetinaNetFromTrain default_sizes default_strides default_ratios default_scales =
      .ok (.filterDetections "nms"
        (.clipBoxes "clipped_boxes" .input
          (.regressBoxes "boxes"
            (.concat "anchors"
              [.anchorsLayer 32 8 default_ratios default_scales "anchors_0"
                 (.layerOutput "P3"),
               .anchorsLayer 64 16 default_ratios default_scales "anchors_1"
                 (.layerOutput "P4"),
               .anchorsLayer 128 32 default_ratios default_scales "anchors_2"
                 (.layerOutput "P5"),
               .anchorsLayer 256 64 default_ratios default_scales "anchors_3"
                 (.layerOutput "P6"),
               .anchorsLayer 512 128 default_ratios default_scales "anchors_4"
                 (.layerOutput "P7")])
            .regressionOut))
        .classificationOut) :=
  C2_inference_pipeline_order default_sizes default_strides default_ratios
    default_scales _ (by rfl)

/-- C3: anchor construction fails fast with a configuration error whenever the
sizes or strides list length disagrees with the number of feature levels, and on
success the anchors are built from exactly the provided per-level sizes and
strides — no default is silently substituted. -/
theorem C3_malformed_anchor_config (features : List Tensor) (sizes strides : List ℚ)
    (ratios scales : List ℝ) :
    (sizes.length ≠ features.length ∨ strides.length ≠ features.length →
      ∃ msg, build_anchors features sizes strides ratios scales = .error msg) ∧
    (∀ t, build_anchors features sizes strides ratios scales = .ok t →
      sizes.length = features.length ∧ strides.length = features.length ∧
      t = .concat "anchors"
        (((features.zip (sizes.zip strides)).enum).map
          (fun p => .anchorsLayer p.2.2.1 p.2.2.2 ratios scales
            ("anchors_" ++ toString p.1) p.2.1))) := by
  unfold build_anchors
  by_cases h1 : features.length = sizes.length
  · rw [if_neg (not_not_intro h1)]
    by_cases h2 : features.length = strides.length
    · rw [if_neg (not_not_intro h2)]
      refine ⟨fun hc => ?_, fun t ht => ?_⟩
      · rcases hc with hc | hc
        · exact absurd h1.symm hc
        · exact absurd h2.symm hc
      · exact ⟨h1.symm, h2.symm, ((Except.ok.injEq _ _).mp ht).symm⟩
    · rw [if_pos h2]
      exact ⟨fun _ => ⟨_, rfl⟩, fun t ht => by cases ht⟩
  · rw [if_pos h1]
    exact ⟨fun _ => ⟨_, rfl⟩, fun t ht => by cases ht⟩

/-- Witness for C3: two sizes and one stride against a single feature level is
rejected with a configuration error. -/
theorem C3_witness :
    ∃ msg, build_anchors [Tensor.input] [32, 64] [8] [] [] = .error msg :=
  (C3_malformed_anchor_config [Tensor.input] [32, 64] [8] [] []).1
    (Or.inl (by decide))

/-- C7: the inference model reads exactly the five pyramid levels `P3`..`P7` in
that order, and the default anchor configuration pairs sizes
`(32, 64, 128, 256, 512)` index-for-index with strides `(8, 16, 32, 64, 128)`,
which are strictly increasing (finest to coarsest). -/
theorem C7_pyramid_defaults :
    pyramid_levels = ["P3", "P4", "P5", "P6", "P7"] ∧
    pyramid_levels.length = 5 ∧
    default_sizes.zip default_strides =
      [(32, 8), (64, 16), (128, 32), (256, 64), (512, 128)] ∧
    List.Chain' (· < ·) default_strides := by
  refine ⟨rfl, rfl, rfl, ?_⟩
  norm_num [default_strides, List.chain'_cons]

/-- C8: the deserialization registry of `LoadRetinaNet` maps exactly the seven
stable names `ResizeTo`, `RegressBoxes`, `FilterDetections`, `Anchors`,
`ClipBoxes`, `detection_focal_loss`, `detection_smooth_l1_loss` to their
constructors, is duplicate-free, is extended with the backbone's custom objects,
and any name outside the registry resolves to nothing (no dynamic fallback). -/
theorem C8_custom_object_registry :
    (retinanet_custom_objects.map Prod.fst =
      ["ResizeTo", "RegressBoxes", "FilterDetections", "Anchors", "ClipBoxes",
       "detection_focal_loss", "detection_smooth_l1_loss"]) ∧
    (retinanet_custom_objects.map Prod.fst).Nodup ∧
    (∀ bb, load_retinanet_custom_objects bb = retinanet_custom_objects ++ bb) ∧
    (∀ name, name ∉ retinanet_custom_objects.map Prod.fst →
      resolve_custom_object [] name = none) := by
  refine ⟨rfl, by decide, fun bb => rfl, ?_⟩
  intro name hname
  simp only [retinanet_custom_objects, List.map, List.mem_cons, List.not_mem_nil,
    or_false, not_or] at hname
  obtain ⟨n1, n2, n3, n4, n5, n6, n7⟩ := hname
  have b1 : (name == "ResizeTo") = false := beq_eq_false_iff_ne.mpr n1
  have b2 : (name == "RegressBoxes") = false := beq_eq_false_iff_ne.mpr n2
  have b3 : (name == "FilterDetections") = false := beq_eq_false_iff_ne.mpr n3
  have b4 : (name == "Anchors") = false := beq_eq_false_iff_ne.mpr n4
  have b5 : (name == "ClipBoxes") = false := beq_eq_false_iff_ne.mpr n5
  have b6 : (name == "detection_focal_loss") = false := beq_eq_false_iff_ne.mpr n6
  have b7 : (name == "detection_smooth_l1_loss") = false := beq_eq_false_iff_ne.mpr n7
  simp only [resolve_custom_object, retinanet_custom_objects, List.lookup,
    b1, b2, b3, b4, b5, b6, b7]

/-- Witness for C8: the standard keras layer name `Dense` is not in the registry
and resolves to nothing. -/
theorem C8_witness : resolve_custom_object [] "Dense" = none :=
  C8_custom_object_registry.2.2.2 "Dense" (by decide)

/-- C4: the full anchor set concatenates per-level anchors in the order of the
feature list — the same order in which the submodel outputs are concatenated —
so when every level contributes as many predictions as anchors, the anchor at
flat position `i` and the prediction at flat position `i` come from the same
level `lvl` and the same within-level cell `off`. -/
theorem C4_anchor_prediction_alignment {F P : Type}
    (features : List F) (anchorsFor : F → List Box) (model : F → List P)
    (hlen : ∀ f ∈ features, (model f).length = (anchorsFor f).length)
    (i lvl off : ℕ)
    (hloc : locate (features.map (fun f => (anchorsFor f).length)) i
      = some (lvl, off)) :
    (build_anchors_concat anchorsFor features)[i]? =
      features[lvl]?.bind (fun f => (anchorsFor f)[off]?) ∧
    (apply_model model features)[i]? =
      features[lvl]?.bind (fun f => (model f)[off]?) := by
  have hmapA : (features.map anchorsFor).map List.length
      = features.map (fun f => (anchorsFor f).length) := by
    rw [List.map_map]; rfl
  have hmapM : (features.map model).map List.length
      = features.map (fun f => (model f).length) := by
    rw [List.map_map]; rfl
  have hsame : features.map (fun f => (model f).length)
      = features.map (fun f => (anchorsFor f).length) :=
    List.map_congr_left hlen
  constructor
  · have hj := join_getElem (features.map anchorsFor) i lvl off
      (by rw [hmapA]; exact hloc)
    rw [build_anchors_concat, hj, List.getElem?_map]
    cases features[lvl]? <;> simp
  · have hj := join_getElem (features.map model) i lvl off
      (by rw [hmapM, hsame]; exact hloc)
    rw [apply_model, hj, List.getElem?_map]
    cases features[lvl]? <;> simp

/-- Witness for C4: two levels with 2 and 3 anchors; flat index 3 resolves to
level 1, offset 1 for both the anchor concatenation and the prediction
concatenation. -/
theorem C4_witness :
    (build_anchors_concat (fun f => List.replicate f (⟨0, 0, 1, 1⟩ : Box))
        [2, 3])[3]? =
      ([2, 3] : List ℕ)[1]?.bind
        (fun f => (List.replicate f (⟨0, 0, 1, 1⟩ : Box))[1]?) ∧
    (apply_model (fun f => List.replicate f f) [2, 3])[3]? =
      ([2, 3] : List ℕ)[1]?.bind (fun f => (List.replicate f f)[1]?) :=
  C4_anchor_prediction_alignment [2, 3]
    (fun f => List.replicate f ⟨0, 0, 1, 1⟩) (fun f => List.replicate f f)
    (by decide) 3 1 1 (by rfl)

/-- C6: for every spatial cell `(y, x)` and anchor `a`, the classification head
entry at row `(y*w + x)*numAnchors + a`, column `k` is the sigmoid of the final
conv output at that cell's channel `a*numClasses + k` — hence lies in `[0, 1]` —
and the regression head entry at the same row, column `t < 4`, is the raw
(unactivated) conv output at channel `a*4 + t`: both heads flatten spatial
positions row-major into the same one-row-per-anchor layout. -/
theorem C6_head_output_shape (numClasses numAnchors w y x a k t : ℕ)
    (convC convR : ℕ → ℕ → ℕ → ℝ)
    (hx : x < w) (ha : a < numAnchors) (hk : k < numClasses) (ht : t < 4) :
    classification_submodel numClasses numAnchors w convC
        ((y * w + x) * numAnchors + a) k
      = sigmoid (convC y x (a * numClasses + k)) ∧
    0 ≤ classification_submodel numClasses numAnchors w convC
        ((y * w + x) * numAnchors + a) k ∧
    classification_submodel numClasses numAnchors w convC
        ((y * w + x) * numAnchors + a) k ≤ 1 ∧
    regression_submodel numAnchors w convR ((y * w + x) * numAnchors + a) t
      = convR y x (a * 4 + t) := by
  have hchC : a * numClasses + k < numClasses * numAnchors := by
    have h1 : a * numClasses + k < (a + 1) * numClasses := by
      calc a * numClasses + k < a * numClasses + numClasses :=
            Nat.add_lt_add_left hk _
      _ = (a + 1) * numClasses := by ring
    have h2 : (a + 1) * numClasses ≤ numAnchors * numClasses :=
      Nat.mul_le_mul_right _ (Nat.succ_le_of_lt ha)
    calc a * numClasses + k < numAnchors * numClasses := lt_of_lt_of_le h1 h2
    _ = numClasses * numAnchors := Nat.mul_comm _ _
  have hchR : a * 4 + t < numAnchors * 4 := by
    have h1 : a * 4 + t < (a + 1) * 4 := by
      calc a * 4 + t < a * 4 + 4 := Nat.add_lt_add_left ht _
      _ = (a + 1) * 4 := by ring
    exact lt_of_lt_of_le h1 (Nat.mul_le_mul_right _ (Nat.succ_le_of_lt ha))
  have hidxC : ((y * w + x) * numAnchors + a) * numClasses + k
      = (y * w + x) * (numClasses * numAnchors) + (a * numClasses + k) := by ring
  have hidxR : ((y * w + x) * numAnchors + a) * 4 + t
      = (y * w + x) * (numAnchors * 4) + (a * 4 + t) := by ring
  obtain ⟨e1, e2, e3⟩ :=
    flat_index_eval y x (a * numClasses + k) w (numClasses * numAnchors) hx hchC
  obtain ⟨f1, f2, f3⟩ :=
    flat_index_eval y x (a * 4 + t) w (numAnchors * 4) hx hchR
  have hclass : classification_submodel numClasses numAnchors w convC
      ((y * w + x) * numAnchors + a) k
      = sigmoid (convC y x (a * numClasses + k)) := by
    unfold classification_submodel reshapeRows flattenHWC
    rw [hidxC, e1, e2, e3]
  refine ⟨hclass, ?_, ?_, ?_⟩
  · rw [hclass]; exact (sigmoid_mem_unit _).1
  · rw [hclass]; exact (sigmoid_mem_unit _).2
  · unfold regression_submodel reshapeRows flattenHWC
    rw [hidxR, f1, f2, f3]

/-- Witness for C6 at a 1×1 feature map with one anchor and one class. -/
theorem C6_witness :
    classification_submodel 1 1 1 (fun _ _ _ => (0 : ℝ))
        ((0 * 1 + 0) * 1 + 0) 0
      = sigmoid ((fun _ _ _ => (0 : ℝ)) 0 0 (0 * 1 + 0)) ∧
    0 ≤ classification_submodel 1 1 1 (fun _ _ _ => (0 : ℝ))
        ((0 * 1 + 0) * 1 + 0) 0 ∧
    classification_submodel 1 1 1 (fun _ _ _ => (0 : ℝ))
        ((0 * 1 + 0) * 1 + 0) 0 ≤ 1 ∧
    regression_submodel 1 1 (fun _ _ _ => (1 : ℝ)) ((0 * 1 + 0) * 1 + 0) 2
      = (fun _ _ _ => (1 : ℝ)) 0 0 (0 * 4 + 2) :=
  C6_head_output_shape 1 1 1 0 0 0 0 2 (fun _ _ _ => 0) (fun _ _ _ => 1)
    (by decide) (by decide) (by decide) (by decide)

/-- C9: `read_image` returns a height × width × 3 array in RGB channel order
for every openable image, whatever the source color mode: grayscale values are
replicated across the three channels, palette pixels resolve through the
palette, RGB is kept in order, RGBA drops alpha. -/
theorem C9_read_image_rgb (img : PILImage) :
    (read_image img).1 = (img.height, img.width, 3) ∧
    (∀ y x v, img.px y x = .gray v →
      (read_image img).2 y x 0 = v ∧ (read_image img).2 y x 1 = v ∧
      (read_image img).2 y x 2 = v) ∧
    (∀ y x i, img.px y x = .pal i →
      ((read_image img).2 y x 0, (read_image img).2 y x 1,
        (read_image img).2 y x 2) = img.palette i) ∧
    (∀ y x r g b, img.px y x = .rgb r g b →
      (read_image img).2 y x 0 = r ∧ (read_image img).2 y x 1 = g ∧
      (read_image img).2 y x 2 = b) ∧
    (∀ y x r g b al, img.px y x = .rgba r g b al →
      (read_image img).2 y x 0 = r ∧ (read_image img).2 y x 1 = g ∧
      (read_image img).2 y x 2 = b) := by
  refine ⟨rfl, ?_, ?_, ?_, ?_⟩ <;> intros <;>
    simp_all [read_image, convertRGB, channelOf]

/-- Witness for C9: a 2×2 RGBA image reads back as a 3-channel array with the
alpha channel dropped. -/
theorem C9_witness :
    (read_image ⟨2, 2, fun _ => (7, 8, 9), fun _ _ => Pixel.rgba 1 2 3 4⟩).1
      = (2, 2, 3) ∧
    (read_image ⟨2, 2, fun _ => (7, 8, 9), fun _ _ => Pixel.rgba 1 2 3 4⟩).2 0 0 0
      = 1 ∧
    (read_image ⟨2, 2, fun _ => (7, 8, 9), fun _ _ => Pixel.rgba 1 2 3 4⟩).2 0 0 1
      = 2 ∧
    (read_image ⟨2, 2, fun _ => (7, 8, 9), fun _ _ => Pixel.rgba 1 2 3 4⟩).2 0 0 2
      = 3 := by
  have h := C9_read_image_rgb ⟨2, 2, fun _ => (7, 8, 9), fun _ _ => Pixel.rgba 1 2 3 4⟩
  exact ⟨h.1, (h.2.2.2.2 0 0 1 2 3 4 rfl).1, (h.2.2.2.2 0 0 1 2 3 4 rfl).2.1,
    (h.2.2.2.2 0 0 1 2 3 4 rfl).2.2⟩

/-- C10: for a BMP file (at least 26 bytes, `BM` magic) whose DIB header size
field is at least 40, `get_image_size` returns the absolute value of the stored
signed 32-bit height, so an upside-down sibling (negated stored height) yields
the same positive height; a DIB header size that is neither 12 nor at least 40
raises `UnknownImageFormat` instead of returning a size. -/
theorem C10_bmp_height (data : List ℕ) (h26 : 26 ≤ data.length)
    (hBM : data.take 2 = [66, 77]) :
    (40 ≤ u32le (bytesAt data 14 4) →
      get_image_size data =
        .ok (i32le (bytesAt data 18 4),
          ((i32le (bytesAt data 22 4)).natAbs : ℤ))) ∧
    (u32le (bytesAt data 14 4) ≠ 12 → u32le (bytesAt data 14 4) < 40 →
      get_image_size data =
        .error ("Unkown DIB header size:" ++
          toString (u32le (bytesAt data 14 4)))) ∧
    (∀ data₂ : List ℕ, 26 ≤ data₂.length → data₂.take 2 = [66, 77] →
      40 ≤ u32le (bytesAt data₂ 14 4) → 40 ≤ u32le (bytesAt data 14 4) →
      i32le (bytesAt data₂ 22 4) = -(i32le (bytesAt data 22 4)) →
      ∃ w1 w2 ht, get_image_size data = .ok (w1, ht) ∧
        get_image_size data₂ = .ok (w2, ht)) := by
  refine ⟨?_, ?_, ?_⟩
  · intro h40
    rw [get_image_size_bmp data h26 hBM, if_neg (by omega), if_pos h40]
  · intro h12 hlt
    rw [get_image_size_bmp data h26 hBM, if_neg h12, if_neg (by omega)]
  · intro data₂ h26b hBMb h40b h40 hneg
    refine ⟨i32le (bytesAt data 18 4), i32le (bytesAt data₂ 18 4),
      ((i32le (bytesAt data 22 4)).natAbs : ℤ), ?_, ?_⟩
    · rw [get_image_size_bmp data h26 hBM, if_neg (by omega), if_pos h40]
    · rw [get_image_size_bmp data₂ h26b hBMb, if_neg (by omega), if_pos h40b]
      rw [hneg, Int.natAbs_neg]

/-- Witness for C10: a minimal 26-byte BMP with header size 40, width 3,
height 7, and its upside-down sibling with stored height −7, both return
`(3, 7)`. -/
theorem C10_witness :
    get_image_size [66, 77, 0, 0, 0, 0, 0, 0, 0, 0, 0, 0, 0, 0, 40, 0, 0, 0,
      3, 0, 0, 0, 7, 0, 0, 0] = .ok (3, 7) ∧
    get_image_size [66, 77, 0, 0, 0, 0, 0, 0, 0, 0, 0, 0, 0, 0, 40, 0, 0, 0,
      3, 0, 0, 0, 249, 255, 255, 255] = .ok (3, 7) := by
  have h1 := (C10_bmp_height [66, 77, 0, 0, 0, 0, 0, 0, 0, 0, 0, 0, 0, 0, 40,
    0, 0, 0, 3, 0, 0, 0, 7, 0, 0, 0] (by decide) (by decide)).1 (by decide)
  have h2 := (C10_bmp_height [66, 77, 0, 0, 0, 0, 0, 0, 0, 0, 0, 0, 0, 0, 40,
    0, 0, 0, 3, 0, 0, 0, 249, 255, 255, 255] (by decide) (by decide)).1
    (by decide)
  rw [h1, h2]
  constructor <;> rfl

end KerasPipeline
